import Mathlib

/-!
# Nova animatronic firmware: a shallow embedding

This file embeds the runtime firmware `nova_arduino.ino` of the Nova
animatronic head into Lean 4 and proves the specified properties of its
control loop, jaw interpolator, command dispatcher and serial line reader.

Modelling conventions:
* Arduino `String` values are `List Char`; the helper functions `trim`,
  `firstSpaceIdx` (for `indexOf(' ')`), `atoiList` (for `toInt`, i.e. C
  `atol`), `equalsIgnoreCase` and `constrain` mirror the library routines
  the sketch calls.
* `millis()` timestamps are `Nat`; the elapsed-time test
  `currentTime - lastJawUpdateTime >= JAW_UPDATE_DELAY_MS` is kept with
  truncated `Nat` subtraction, which agrees with the unsigned subtraction
  of the source for monotone time within one wrap period.
* Machine integers are `Int` with explicit two's-complement wraps where
  the source narrows: `String::toInt` (avr-libc `atol`) returns a 32-bit
  `long` (`toInt32` below), and `int angle = command...toInt()` narrows it
  to the 16-bit `int` of the AVR targets (`toInt16` below) before the
  clamp to `[MIN_ANGLE, MAX_ANGLE]`.
* Servo writes and the serial acknowledgment are side effects; each step
  function returns them explicitly (`writes : List (Channel × Int)`,
  `ack : Bool` meaning one `println("K")`).
-/

/-- The four actuator channels driven by the firmware
(`servoNeck`, `servoJaw`, `servoEye`, `servoZ`). -/
inductive Channel where
  | neck
  | jaw
  | eye
  | z
deriving DecidableEq, Repr

/-- The `MIN_ANGLE` safety limit (degrees). -/
def MIN_ANGLE : Int := 0

/-- The `MAX_ANGLE` safety limit (degrees). -/
def MAX_ANGLE : Int := 180

/-- The `JAW_UPDATE_DELAY_MS` constant: the jaw motion time quantum (ms per degree). -/
def JAW_UPDATE_DELAY_MS : Nat := 6

/-- The `INIT_NECK` startup angle. -/
def INIT_NECK : Int := 80

/-- The `INIT_JAW` startup angle. -/
def INIT_JAW : Int := 30

/-- The `INIT_EYE` startup angle. -/
def INIT_EYE : Int := 80

/-- The `INIT_Z` startup angle. -/
def INIT_Z : Int := 130

/-- The Arduino clamp `constrain(amt, low, high)`:
`(amt < low) ? low : ((amt > high) ? high : amt)`. -/
def constrain (amt low high : Int) : Int :=
  if amt < low then low else if amt > high then high else amt

/-- Whitespace as C `isspace`, used by Arduino `String::trim`. -/
def isSpaceChar (c : Char) : Bool :=
  c = ' ' || c = '\t' || c = '\n' || c = '\x0b' || c = '\x0c' || c = '\r'

/-- Arduino `String::trim`: strip leading and trailing whitespace. -/
def trim (s : List Char) : List Char :=
  ((s.dropWhile isSpaceChar).reverse.dropWhile isSpaceChar).reverse

/-- Arduino `String::indexOf(' ')`: index of the first space, if any
(`-1` in the source becomes `none`). -/
def firstSpaceIdx : List Char → Option Nat
  | [] => none
  | c :: cs => if c = ' ' then some 0 else (firstSpaceIdx cs).map (· + 1)

/-- C `tolower` on ASCII, as used by `String::equalsIgnoreCase`. -/
def toLowerChar (c : Char) : Char :=
  if 'A' ≤ c ∧ c ≤ 'Z' then Char.ofNat (c.toNat + 32) else c

/-- Arduino `String::equalsIgnoreCase`: equality after `tolower`. -/
def equalsIgnoreCase (a b : List Char) : Bool :=
  a.map toLowerChar == b.map toLowerChar

/-- Digit run to a number, the accumulation step of C `atol`. -/
def digitsToNat (cs : List Char) : Nat :=
  cs.foldl (fun acc c => acc * 10 + (c.toNat - 48)) 0

/-- Two's-complement wrap into 32 bits: the width of the AVR `long` in
which `atol` accumulates (and to which it wraps on overflow). -/
def toInt32 (x : Int) : Int := (x + 2 ^ 31) % 2 ^ 32 - 2 ^ 31

/-- Two's-complement wrap into 16 bits: the width of the AVR `int` to
which `int angle = command.substring(spaceIndex + 1).toInt();` narrows
the parsed `long`. -/
def toInt16 (x : Int) : Int := (x + 2 ^ 15) % 2 ^ 16 - 2 ^ 15

/-- Arduino `String::toInt` (avr-libc `atol`): skip leading whitespace,
read an optional sign and then a maximal digit run (anything else yields
`0`), the value accumulated in — and wrapped to — a 32-bit `long`. -/
def atoiList (cs : List Char) : Int :=
  let t := cs.dropWhile isSpaceChar
  let raw : Int :=
    match t with
    | [] => 0
    | c :: rest =>
      if c = '-' then -(digitsToNat (rest.takeWhile Char.isDigit) : Int)
      else if c = '+' then (digitsToNat (rest.takeWhile Char.isDigit) : Int)
      else (digitsToNat ((c :: rest).takeWhile Char.isDigit) : Int)
  toInt32 raw

/-- The mutable globals of the sketch: the jaw motion state
(`currentJawAngle`, `targetJawAngle`, `lastJawUpdateTime`) and the serial
buffer (`inputString`, `stringComplete`). -/
@[ext]
structure FirmwareState where
  currentJawAngle : Int
  targetJawAngle : Int
  lastJawUpdateTime : Nat
  inputString : List Char
  stringComplete : Bool
deriving DecidableEq, Repr

/-- The global state right after `setup()`. -/
def initState : FirmwareState :=
  { currentJawAngle := INIT_JAW
    targetJawAngle := INIT_JAW
    lastJawUpdateTime := 0
    inputString := []
    stringComplete := false }

/-- The dispatcher `processCommand(String command)`: trim, split at the
first space, parse the angle (the `long` from `toInt` is narrowed to the
16-bit `int` the source assigns it to), clamp it, and dispatch
case-insensitively.  Returns the new `targetJawAngle` together with the
direct servo write, if any. -/
def processCommand (command : List Char) (targetJawAngle : Int) :
    Int × Option (Channel × Int) :=
  let cmd := trim command
  match firstSpaceIdx cmd with
  | none => (targetJawAngle, none)
  | some spaceIndex =>
    let cmdType := cmd.take spaceIndex
    let angle := constrain (toInt16 (atoiList (cmd.drop (spaceIndex + 1)))) MIN_ANGLE MAX_ANGLE
    if equalsIgnoreCase cmdType ("neck".toList) then
      (targetJawAngle, some (Channel.neck, angle))
    else if equalsIgnoreCase cmdType ("jaw".toList) then
      (angle, none)
    else if equalsIgnoreCase cmdType ("eye".toList) then
      (targetJawAngle, some (Channel.eye, angle))
    else if equalsIgnoreCase cmdType ("z".toList) then
      (targetJawAngle, some (Channel.z, angle))
    else
      (targetJawAngle, none)

/-- The reader `serialEvent()`: drain every available byte; a non-newline byte is
appended to `inputString`, a newline sets `stringComplete` (and is not
stored).  Accumulation continues even after the flag is set. -/
def serialEvent (s : FirmwareState) : List Char → FirmwareState
  | [] => s
  | inChar :: rest =>
    if inChar ≠ '\n' then
      serialEvent { s with inputString := s.inputString ++ [inChar] } rest
    else
      serialEvent { s with stringComplete := true } rest

/-- The smooth-jaw-movement block at the top of `loop()`: if a quantum has
elapsed, refresh `lastJawUpdateTime` and move `currentJawAngle` one degree
toward `targetJawAngle`, writing the new angle to the jaw servo. -/
def jawPhase (s : FirmwareState) (currentTime : Nat) :
    FirmwareState × Option Int :=
  if currentTime - s.lastJawUpdateTime ≥ JAW_UPDATE_DELAY_MS then
    if s.currentJawAngle < s.targetJawAngle then
      ({ s with lastJawUpdateTime := currentTime
                currentJawAngle := s.currentJawAngle + 1 },
       some (s.currentJawAngle + 1))
    else if s.currentJawAngle > s.targetJawAngle then
      ({ s with lastJawUpdateTime := currentTime
                currentJawAngle := s.currentJawAngle - 1 },
       some (s.currentJawAngle - 1))
    else
      ({ s with lastJawUpdateTime := currentTime }, none)
  else
    (s, none)

/-- The serial-command block at the bottom of `loop()`: if a command is
complete, run `processCommand` on the buffer, clear the buffer and the
flag, and acknowledge with one `println("K")`. -/
def commandPhase (s : FirmwareState) :
    FirmwareState × Option (Channel × Int) × Bool :=
  if s.stringComplete then
    let r := processCommand s.inputString s.targetJawAngle
    ({ s with targetJawAngle := r.1
              inputString := []
              stringComplete := false },
     r.2, true)
  else
    (s, none, false)

/-- The servo writes and acknowledgment emitted by one `loop()` call. -/
structure LoopEffects where
  writes : List (Channel × Int)
  ack : Bool
deriving DecidableEq, Repr

/-- One invocation of `loop()` at time `currentTime = millis()`: the jaw
movement block runs first, then the serial-command block. -/
def loopIter (s : FirmwareState) (currentTime : Nat) :
    FirmwareState × LoopEffects :=
  let r1 := jawPhase s currentTime
  let r2 := commandPhase r1.1
  (r2.1,
   { writes := (r1.2.map (fun a => (Channel.jaw, a))).toList ++ r2.2.1.toList
     ack := r2.2.2 })

/-- Iterate `loop()` (with no serial traffic) at the given times,
collecting all servo writes. -/
def loopTicks (s : FirmwareState) : List Nat → FirmwareState × List (Channel × Int)
  | [] => (s, [])
  | t :: ts =>
    ((loopTicks (loopIter s t).1 ts).1,
     (loopIter s t).2.writes ++ (loopTicks (loopIter s t).1 ts).2)

/-- Predicate `eligible last ts` holds when every listed time is at least one jaw
quantum after its predecessor (and the first at least one quantum after
`last`), so each corresponding `loop()` call passes the elapsed test. -/
def eligible (last : Nat) : List Nat → Bool
  | [] => true
  | t :: ts => decide (last + JAW_UPDATE_DELAY_MS ≤ t) && eligible t ts

/-- The sequence of jaw angles written while stepping from `c` toward `t`
for `n` ticks: `c+1, c+2, …` (or `c-1, c-2, …`), stopping at `t`. -/
def jawSeq : Int → Int → Nat → List Int
  | _, _, 0 => []
  | c, t, n + 1 =>
    if c < t then (c + 1) :: jawSeq (c + 1) t n
    else if t < c then (c - 1) :: jawSeq (c - 1) t n
    else []

/-- Run the firmware over a list of events, each event delivering some
serial bytes and then running `loop()` at the given time; collect the
times of the iterations that wrote to the jaw servo. -/
def jawWriteTimes (s : FirmwareState) : List (Nat × List Char) → List Nat
  | [] => []
  | e :: evs =>
    (if (loopIter (serialEvent s e.2) e.1).2.writes.any
        (fun p => p.1 == Channel.jaw) then [e.1] else []) ++
    jawWriteTimes (loopIter (serialEvent s e.2) e.1).1 evs

/-- The states the firmware can reach from startup under any interleaving
of serial byte arrival and `loop()` invocations. -/
inductive Reachable : FirmwareState → Prop where
  | init : Reachable initState
  | serial (s : FirmwareState) (bytes : List Char) :
      Reachable s → Reachable (serialEvent s bytes)
  | step (s : FirmwareState) (now : Nat) :
      Reachable s → Reachable (loopIter s now).1

/-! ## Helper lemmas -/

/-- Clamping with `constrain` lands in the clamp interval. -/
lemma constrain_mem (amt low high : Int) (h : low ≤ high) :
    low ≤ constrain amt low high ∧ constrain amt low high ≤ high := by
  unfold constrain
  split <;> [omega; split <;> omega]

/-- Reading with `serialEvent` appends exactly the non-newline bytes to the buffer and
sets the complete flag as soon as any newline is seen. -/
lemma serialEvent_eq : ∀ (bytes : List Char) (s : FirmwareState),
    serialEvent s bytes =
      { s with inputString := s.inputString ++ bytes.filter (fun c => c != '\n')
               stringComplete := s.stringComplete || bytes.any (fun c => c == '\n') } := by
  intro bytes
  induction bytes with
  | nil => intro s; simp [serialEvent]
  | cons c rest ih =>
    intro s
    by_cases hc : c = '\n'
    · subst hc
      simp [serialEvent, ih]
    · have hb : (c == '\n') = false := by simp [hc]
      simp [serialEvent, hc, ih, hb, List.filter_cons, List.any_cons]

/-- Function `commandPhase` is the identity (with no effects) when no command is
complete. -/
lemma commandPhase_not_complete {s : FirmwareState} (h : s.stringComplete = false) :
    commandPhase s = (s, none, false) := by
  simp [commandPhase, h]

/-- Function `commandPhase` on a completed command dispatches the whole buffer,
clears it and acknowledges. -/
lemma commandPhase_complete {s : FirmwareState} (h : s.stringComplete = true) :
    commandPhase s =
      ({ s with targetJawAngle := (processCommand s.inputString s.targetJawAngle).1
                inputString := []
                stringComplete := false },
       (processCommand s.inputString s.targetJawAngle).2, true) := by
  simp [commandPhase, h]

/-- The jaw block does nothing before a quantum has elapsed. -/
lemma jawPhase_skip {s : FirmwareState} {now : Nat}
    (h : now < s.lastJawUpdateTime + JAW_UPDATE_DELAY_MS) :
    jawPhase s now = (s, none) := by
  have hD : JAW_UPDATE_DELAY_MS = 6 := rfl
  unfold jawPhase
  rw [if_neg]
  omega

/-- An elapsed jaw tick while idle only refreshes the timer. -/
lemma jawPhase_idle {s : FirmwareState} {now : Nat}
    (h : s.lastJawUpdateTime + JAW_UPDATE_DELAY_MS ≤ now)
    (heq : s.currentJawAngle = s.targetJawAngle) :
    jawPhase s now = ({ s with lastJawUpdateTime := now }, none) := by
  have hD : JAW_UPDATE_DELAY_MS = 6 := rfl
  unfold jawPhase
  rw [if_pos (by omega), if_neg (by omega), if_neg (by omega)]

/-- An elapsed jaw tick below target increments and writes the new angle. -/
lemma jawPhase_up {s : FirmwareState} {now : Nat}
    (h : s.lastJawUpdateTime + JAW_UPDATE_DELAY_MS ≤ now)
    (hlt : s.currentJawAngle < s.targetJawAngle) :
    jawPhase s now =
      ({ s with lastJawUpdateTime := now
                currentJawAngle := s.currentJawAngle + 1 },
       some (s.currentJawAngle + 1)) := by
  have hD : JAW_UPDATE_DELAY_MS = 6 := rfl
  unfold jawPhase
  rw [if_pos (by omega), if_pos hlt]

/-- An elapsed jaw tick above target decrements and writes the new angle. -/
lemma jawPhase_down {s : FirmwareState} {now : Nat}
    (h : s.lastJawUpdateTime + JAW_UPDATE_DELAY_MS ≤ now)
    (hgt : s.currentJawAngle > s.targetJawAngle) :
    jawPhase s now =
      ({ s with lastJawUpdateTime := now
                currentJawAngle := s.currentJawAngle - 1 },
       some (s.currentJawAngle - 1)) := by
  have hD : JAW_UPDATE_DELAY_MS = 6 := rfl
  unfold jawPhase
  rw [if_pos (by omega), if_neg (by omega), if_pos hgt]

/-- Function `loopIter` unfolded into its two blocks. -/
lemma loopIter_unfold (s : FirmwareState) (now : Nat) :
    loopIter s now =
      ((commandPhase (jawPhase s now).1).1,
       { writes := ((jawPhase s now).2.map (fun a => (Channel.jaw, a))).toList ++
           (commandPhase (jawPhase s now).1).2.1.toList
         ack := (commandPhase (jawPhase s now).1).2.2 }) := rfl

/-- Matching `equalsIgnoreCase` strings have equal length. -/
lemma equalsIgnoreCase_length {a b : List Char}
    (h : equalsIgnoreCase a b = true) : a.length = b.length := by
  unfold equalsIgnoreCase at h
  have h2 : a.map toLowerChar = b.map toLowerChar := by
    exact beq_iff_eq.mp h
  calc a.length = (a.map toLowerChar).length := (List.length_map a toLowerChar).symm
    _ = (b.map toLowerChar).length := by rw [h2]
    _ = b.length := List.length_map b toLowerChar

/-- A malformed command (no space after trimming) is a no-op. -/
lemma processCommand_no_space {cmd : List Char} (t : Int)
    (h : firstSpaceIdx (trim cmd) = none) :
    processCommand cmd t = (t, none) := by
  simp [processCommand, h]

/-- A `jaw` command dispatches to the target update only. -/
lemma processCommand_jaw {cmd : List Char} (t : Int) {i : Nat}
    (hi : firstSpaceIdx (trim cmd) = some i)
    (hj : equalsIgnoreCase ((trim cmd).take i) ("jaw".toList) = true) :
    processCommand cmd t =
      (constrain (toInt16 (atoiList ((trim cmd).drop (i + 1)))) MIN_ANGLE MAX_ANGLE, none) := by
  have hneck : equalsIgnoreCase ((trim cmd).take i) ("neck".toList) = false := by
    cases hn : equalsIgnoreCase ((trim cmd).take i) ("neck".toList) with
    | false => rfl
    | true =>
      have l1 := equalsIgnoreCase_length hj
      have l2 := equalsIgnoreCase_length hn
      have e1 : ("jaw".toList).length = 3 := rfl
      have e2 : ("neck".toList).length = 4 := rfl
      omega
  simp only [processCommand, hi]
  simp only [hneck, hj]
  simp

/-- A `neck` command dispatches to a single direct neck write. -/
lemma processCommand_neck {cmd : List Char} (t : Int) {i : Nat}
    (hi : firstSpaceIdx (trim cmd) = some i)
    (hn : equalsIgnoreCase ((trim cmd).take i) ("neck".toList) = true) :
    processCommand cmd t =
      (t, some (Channel.neck,
        constrain (toInt16 (atoiList ((trim cmd).drop (i + 1)))) MIN_ANGLE MAX_ANGLE)) := by
  simp only [processCommand, hi]
  simp only [hn]
  simp

/-- An `eye` command dispatches to a single direct eye write. -/
lemma processCommand_eye {cmd : List Char} (t : Int) {i : Nat}
    (hi : firstSpaceIdx (trim cmd) = some i)
    (he : equalsIgnoreCase ((trim cmd).take i) ("eye".toList) = true) :
    processCommand cmd t =
      (t, some (Channel.eye,
        constrain (toInt16 (atoiList ((trim cmd).drop (i + 1)))) MIN_ANGLE MAX_ANGLE)) := by
  have hneck : equalsIgnoreCase ((trim cmd).take i) ("neck".toList) = false := by
    cases hn : equalsIgnoreCase ((trim cmd).take i) ("neck".toList) with
    | false => rfl
    | true =>
      have l1 := equalsIgnoreCase_length he
      have l2 := equalsIgnoreCase_length hn
      have e1 : ("eye".toList).length = 3 := rfl
      have e2 : ("neck".toList).length = 4 := rfl
      omega
  have hjaw : equalsIgnoreCase ((trim cmd).take i) ("jaw".toList) = false := by
    cases hn : equalsIgnoreCase ((trim cmd).take i) ("jaw".toList) with
    | false => rfl
    | true =>
      have m1 : ((trim cmd).take i).map toLowerChar = ("eye".toList).map toLowerChar :=
        beq_iff_eq.mp he
      have m2 : ((trim cmd).take i).map toLowerChar = ("jaw".toList).map toLowerChar :=
        beq_iff_eq.mp hn
      have m3 : ("eye".toList).map toLowerChar = ("jaw".toList).map toLowerChar :=
        m1.symm.trans m2
      revert m3
      decide
  simp only [processCommand, hi]
  simp only [hneck, hjaw, he]
  simp

/-- A `z` command dispatches to a single direct z write. -/
lemma processCommand_z {cmd : List Char} (t : Int) {i : Nat}
    (hi : firstSpaceIdx (trim cmd) = some i)
    (hz : equalsIgnoreCase ((trim cmd).take i) ("z".toList) = true) :
    processCommand cmd t =
      (t, some (Channel.z,
        constrain (toInt16 (atoiList ((trim cmd).drop (i + 1)))) MIN_ANGLE MAX_ANGLE)) := by
  have hlen := equalsIgnoreCase_length hz
  have ez : ("z".toList).length = 1 := rfl
  have hneck : equalsIgnoreCase ((trim cmd).take i) ("neck".toList) = false := by
    cases hn : equalsIgnoreCase ((trim cmd).take i) ("neck".toList) with
    | false => rfl
    | true =>
      have l2 := equalsIgnoreCase_length hn
      have e2 : ("neck".toList).length = 4 := rfl
      omega
  have hjaw : equalsIgnoreCase ((trim cmd).take i) ("jaw".toList) = false := by
    cases hn : equalsIgnoreCase ((trim cmd).take i) ("jaw".toList) with
    | false => rfl
    | true =>
      have l2 := equalsIgnoreCase_length hn
      have e2 : ("jaw".toList).length = 3 := rfl
      omega
  have heye : equalsIgnoreCase ((trim cmd).take i) ("eye".toList) = false := by
    cases hn : equalsIgnoreCase ((trim cmd).take i) ("eye".toList) with
    | false => rfl
    | true =>
      have l2 := equalsIgnoreCase_length hn
      have e2 : ("eye".toList).length = 3 := rfl
      omega
  simp only [processCommand, hi]
  simp only [hneck, hjaw, heye, hz]
  simp

/-- An unrecognized channel token is silently ignored. -/
lemma processCommand_unrecognized {cmd : List Char} (t : Int) {i : Nat}
    (hi : firstSpaceIdx (trim cmd) = some i)
    (h1 : equalsIgnoreCase ((trim cmd).take i) ("neck".toList) = false)
    (h2 : equalsIgnoreCase ((trim cmd).take i) ("jaw".toList) = false)
    (h3 : equalsIgnoreCase ((trim cmd).take i) ("eye".toList) = false)
    (h4 : equalsIgnoreCase ((trim cmd).take i) ("z".toList) = false) :
    processCommand cmd t = (t, none) := by
  simp only [processCommand, hi]
  simp only [h1, h2, h3, h4]
  simp

/-- Every direct write `processCommand` emits is clamped into range. -/
lemma processCommand_write_mem (cmd : List Char) (t : Int) (ch : Channel) (a : Int)
    (h : (processCommand cmd t).2 = some (ch, a)) :
    MIN_ANGLE ≤ a ∧ a ≤ MAX_ANGLE := by
  rcases hfs : firstSpaceIdx (trim cmd) with _ | i
  · rw [processCommand_no_space t hfs] at h
    simp at h
  · cases h1 : equalsIgnoreCase ((trim cmd).take i) ("neck".toList) with
    | true =>
      rw [processCommand_neck t hfs h1] at h
      simp only [Option.some.injEq, Prod.mk.injEq] at h
      rw [← h.2]
      exact constrain_mem _ _ _ (by decide)
    | false =>
    cases h2 : equalsIgnoreCase ((trim cmd).take i) ("jaw".toList) with
    | true =>
      rw [processCommand_jaw t hfs h2] at h
      simp at h
    | false =>
    cases h3 : equalsIgnoreCase ((trim cmd).take i) ("eye".toList) with
    | true =>
      rw [processCommand_eye t hfs h3] at h
      simp only [Option.some.injEq, Prod.mk.injEq] at h
      rw [← h.2]
      exact constrain_mem _ _ _ (by decide)
    | false =>
    cases h4 : equalsIgnoreCase ((trim cmd).take i) ("z".toList) with
    | true =>
      rw [processCommand_z t hfs h4] at h
      simp only [Option.some.injEq, Prod.mk.injEq] at h
      rw [← h.2]
      exact constrain_mem _ _ _ (by decide)
    | false =>
      rw [processCommand_unrecognized t hfs h1 h2 h3 h4] at h
      simp at h

/-- The target `processCommand` returns is the old target or a clamped
value in range. -/
lemma processCommand_target_mem (cmd : List Char) (t : Int) :
    (processCommand cmd t).1 = t ∨
      (MIN_ANGLE ≤ (processCommand cmd t).1 ∧ (processCommand cmd t).1 ≤ MAX_ANGLE) := by
  rcases hfs : firstSpaceIdx (trim cmd) with _ | i
  · left
    rw [processCommand_no_space t hfs]
  · cases h1 : equalsIgnoreCase ((trim cmd).take i) ("neck".toList) with
    | true => left; rw [processCommand_neck t hfs h1]
    | false =>
    cases h2 : equalsIgnoreCase ((trim cmd).take i) ("jaw".toList) with
    | true =>
      right
      rw [processCommand_jaw t hfs h2]
      exact constrain_mem _ _ _ (by decide)
    | false =>
    cases h3 : equalsIgnoreCase ((trim cmd).take i) ("eye".toList) with
    | true => left; rw [processCommand_eye t hfs h3]
    | false =>
    cases h4 : equalsIgnoreCase ((trim cmd).take i) ("z".toList) with
    | true => left; rw [processCommand_z t hfs h4]
    | false => left; rw [processCommand_unrecognized t hfs h1 h2 h3 h4]

/-- Dispatch via `processCommand` never writes the jaw servo directly: the jaw branch
only updates the target. -/
lemma processCommand_write_channel (cmd : List Char) (t : Int) (ch : Channel) (a : Int)
    (h : (processCommand cmd t).2 = some (ch, a)) : ch ≠ Channel.jaw := by
  rcases hfs : firstSpaceIdx (trim cmd) with _ | i
  · rw [processCommand_no_space t hfs] at h
    simp at h
  · cases h1 : equalsIgnoreCase ((trim cmd).take i) ("neck".toList) with
    | true =>
      rw [processCommand_neck t hfs h1] at h
      simp only [Option.some.injEq, Prod.mk.injEq] at h
      rw [← h.1]
      decide
    | false =>
    cases h2 : equalsIgnoreCase ((trim cmd).take i) ("jaw".toList) with
    | true =>
      rw [processCommand_jaw t hfs h2] at h
      simp at h
    | false =>
    cases h3 : equalsIgnoreCase ((trim cmd).take i) ("eye".toList) with
    | true =>
      rw [processCommand_eye t hfs h3] at h
      simp only [Option.some.injEq, Prod.mk.injEq] at h
      rw [← h.1]
      decide
    | false =>
    cases h4 : equalsIgnoreCase ((trim cmd).take i) ("z".toList) with
    | true =>
      rw [processCommand_z t hfs h4] at h
      simp only [Option.some.injEq, Prod.mk.injEq] at h
      rw [← h.1]
      decide
    | false =>
      rw [processCommand_unrecognized t hfs h1 h2 h3 h4] at h
      simp at h

/-- The jaw block never changes the target, the buffer or the flag. -/
lemma jawPhase_other_fields (s : FirmwareState) (now : Nat) :
    (jawPhase s now).1.targetJawAngle = s.targetJawAngle ∧
    (jawPhase s now).1.inputString = s.inputString ∧
    (jawPhase s now).1.stringComplete = s.stringComplete := by
  unfold jawPhase
  split
  · split
    · exact ⟨rfl, rfl, rfl⟩
    · split
      · exact ⟨rfl, rfl, rfl⟩
      · exact ⟨rfl, rfl, rfl⟩
  · exact ⟨rfl, rfl, rfl⟩

/-- The command block never touches the jaw timer or the current angle. -/
lemma commandPhase_other_fields (s : FirmwareState) :
    (commandPhase s).1.lastJawUpdateTime = s.lastJawUpdateTime ∧
    (commandPhase s).1.currentJawAngle = s.currentJawAngle := by
  unfold commandPhase
  split
  · exact ⟨rfl, rfl⟩
  · exact ⟨rfl, rfl⟩

/-- The jaw timer after the jaw block: untouched, or refreshed to `now`
after a full quantum. -/
lemma jawPhase_last (s : FirmwareState) (now : Nat) :
    (jawPhase s now).1.lastJawUpdateTime = s.lastJawUpdateTime ∨
    ((jawPhase s now).1.lastJawUpdateTime = now ∧
      s.lastJawUpdateTime + JAW_UPDATE_DELAY_MS ≤ now) := by
  have hD : JAW_UPDATE_DELAY_MS = 6 := rfl
  unfold jawPhase
  split
  · right
    constructor
    · split
      · rfl
      · split
        · rfl
        · rfl
    · omega
  · left; rfl

/-- On an elapsed iteration the jaw block refreshes the timer to `now`. -/
lemma jawPhase_last_elapsed {s : FirmwareState} {now : Nat}
    (h : s.lastJawUpdateTime + JAW_UPDATE_DELAY_MS ≤ now) :
    (jawPhase s now).1.lastJawUpdateTime = now := by
  have hD : JAW_UPDATE_DELAY_MS = 6 := rfl
  unfold jawPhase
  rw [if_pos (by omega)]
  split
  · rfl
  · split
    · rfl
    · rfl

/-- The jaw timer never decreases across a `loop()` iteration. -/
lemma loopIter_last_mono (s : FirmwareState) (now : Nat) :
    s.lastJawUpdateTime ≤ (loopIter s now).1.lastJawUpdateTime := by
  rw [loopIter_unfold]
  rcases commandPhase_other_fields (jawPhase s now).1 with ⟨hc, _⟩
  rw [hc]
  rcases jawPhase_last s now with h | ⟨h, hle⟩
  · omega
  · omega

/-- A `loop()` iteration with an incomplete buffer is just the jaw block. -/
lemma loopIter_not_complete {s : FirmwareState} {now : Nat}
    (hsc : s.stringComplete = false) :
    loopIter s now =
      ((jawPhase s now).1,
       { writes := ((jawPhase s now).2.map (fun a => (Channel.jaw, a))).toList
         ack := false }) := by
  have hsc' : (jawPhase s now).1.stringComplete = false :=
    (jawPhase_other_fields s now).2.2.trans hsc
  rw [loopIter_unfold, commandPhase_not_complete hsc']
  simp

/-- An idle `loop()` iteration before the quantum is a no-op. -/
lemma loopIter_skip {s : FirmwareState} {now : Nat}
    (hsc : s.stringComplete = false)
    (h : now < s.lastJawUpdateTime + JAW_UPDATE_DELAY_MS) :
    loopIter s now = (s, { writes := [], ack := false }) := by
  rw [loopIter_not_complete hsc, jawPhase_skip h]
  rfl

/-- An elapsed `loop()` iteration below target: one jaw step up. -/
lemma loopIter_up {s : FirmwareState} {now : Nat}
    (hsc : s.stringComplete = false)
    (h : s.lastJawUpdateTime + JAW_UPDATE_DELAY_MS ≤ now)
    (hlt : s.currentJawAngle < s.targetJawAngle) :
    loopIter s now =
      ({ s with lastJawUpdateTime := now
                currentJawAngle := s.currentJawAngle + 1 },
       { writes := [(Channel.jaw, s.currentJawAngle + 1)], ack := false }) := by
  rw [loopIter_not_complete hsc, jawPhase_up h hlt]
  rfl

/-- An elapsed `loop()` iteration above target: one jaw step down. -/
lemma loopIter_down {s : FirmwareState} {now : Nat}
    (hsc : s.stringComplete = false)
    (h : s.lastJawUpdateTime + JAW_UPDATE_DELAY_MS ≤ now)
    (hgt : s.currentJawAngle > s.targetJawAngle) :
    loopIter s now =
      ({ s with lastJawUpdateTime := now
                currentJawAngle := s.currentJawAngle - 1 },
       { writes := [(Channel.jaw, s.currentJawAngle - 1)], ack := false }) := by
  rw [loopIter_not_complete hsc, jawPhase_down h hgt]
  rfl

/-- An elapsed `loop()` iteration at target only refreshes the timer. -/
lemma loopIter_idle {s : FirmwareState} {now : Nat}
    (hsc : s.stringComplete = false)
    (h : s.lastJawUpdateTime + JAW_UPDATE_DELAY_MS ≤ now)
    (heq : s.currentJawAngle = s.targetJawAngle) :
    loopIter s now =
      ({ s with lastJawUpdateTime := now }, { writes := [], ack := false }) := by
  rw [loopIter_not_complete hsc, jawPhase_idle h heq]
  rfl

/-- Once the jaw is at its target (and no command is pending), a `loop()`
iteration produces no servo write at all. -/
lemma loopIter_converged_no_writes {s : FirmwareState}
    (hsc : s.stringComplete = false)
    (heq : s.currentJawAngle = s.targetJawAngle) (now : Nat) :
    (loopIter s now).2.writes = [] := by
  by_cases h : s.lastJawUpdateTime + JAW_UPDATE_DELAY_MS ≤ now
  · rw [loopIter_idle hsc h heq]
  · rw [loopIter_skip hsc (by omega)]

/-- The head of a `jawSeq` is one step from its start toward the target. -/
lemma jawSeq_head : ∀ (n : Nat) (c t b : Int), b ∈ (jawSeq c t n).head? →
    (c < t ∧ b = c + 1) ∨ (t < c ∧ b = c - 1) := by
  intro n c t b hb
  cases n with
  | zero => simp [jawSeq] at hb
  | succ m =>
    unfold jawSeq at hb
    split at hb
    · simp at hb
      left
      exact ⟨by omega, hb.symm⟩
    · split at hb
      · simp at hb
        right
        exact ⟨by omega, hb.symm⟩
      · simp at hb

/-- Ascending `jawSeq` values are strictly increasing. -/
lemma jawSeq_chain_lt : ∀ (n : Nat) (c t : Int), c ≤ t →
    List.Chain' (· < ·) (jawSeq c t n) := by
  intro n
  induction n with
  | zero => intro c t _; simp [jawSeq]
  | succ m ih =>
    intro c t hle
    unfold jawSeq
    split
    · rw [List.chain'_cons']
      refine ⟨?_, ih (c + 1) t (by omega)⟩
      intro b hb
      rcases jawSeq_head m (c + 1) t b hb with ⟨_, rfl⟩ | ⟨h1, _⟩
      · omega
      · omega
    · split
      · omega
      · simp

/-- Descending `jawSeq` values are strictly decreasing. -/
lemma jawSeq_chain_gt : ∀ (n : Nat) (c t : Int), t ≤ c →
    List.Chain' (· > ·) (jawSeq c t n) := by
  intro n
  induction n with
  | zero => intro c t _; simp [jawSeq]
  | succ m ih =>
    intro c t hle
    unfold jawSeq
    split
    · omega
    · split
      · rw [List.chain'_cons']
        refine ⟨?_, ih (c - 1) t (by omega)⟩
        intro b hb
        rcases jawSeq_head m (c - 1) t b hb with ⟨h1, _⟩ | ⟨_, rfl⟩
        · omega
        · omega
      · simp

/-- Running the control loop, with no pending command, for exactly
`|target − current|` eligible ticks: the current angle reaches the target,
and the writes are exactly the one-degree staircase `jawSeq`. -/
lemma loopTicks_converge : ∀ (ts : List Nat) (s : FirmwareState),
    s.stringComplete = false →
    eligible s.lastJawUpdateTime ts = true →
    ts.length = (s.targetJawAngle - s.currentJawAngle).natAbs →
    (loopTicks s ts).1.currentJawAngle = s.targetJawAngle ∧
    (loopTicks s ts).1.targetJawAngle = s.targetJawAngle ∧
    (loopTicks s ts).1.stringComplete = false ∧
    (loopTicks s ts).2 =
      (jawSeq s.currentJawAngle s.targetJawAngle ts.length).map
        (fun a => (Channel.jaw, a)) := by
  intro ts
  induction ts with
  | nil =>
    intro s hsc _ hlen
    have h0 : s.targetJawAngle = s.currentJawAngle := by
      simp only [List.length_nil] at hlen
      omega
    exact ⟨h0.symm, rfl, hsc, rfl⟩
  | cons t ts ih =>
    intro s hsc hel hlen
    have hel' : s.lastJawUpdateTime + JAW_UPDATE_DELAY_MS ≤ t ∧ eligible t ts = true := by
      unfold eligible at hel
      simp only [Bool.and_eq_true, decide_eq_true_eq] at hel
      exact hel
    simp only [List.length_cons] at hlen ⊢
    rcases lt_trichotomy s.currentJawAngle s.targetJawAngle with hlt | heq | hgt
    · have hstep := loopIter_up hsc hel'.1 hlt
      have ihs := ih { s with lastJawUpdateTime := t
                              currentJawAngle := s.currentJawAngle + 1 }
        hsc hel'.2 (by simp only; omega)
      have hseq : jawSeq s.currentJawAngle s.targetJawAngle (ts.length + 1) =
          (s.currentJawAngle + 1) ::
            jawSeq (s.currentJawAngle + 1) s.targetJawAngle ts.length := by
        rw [jawSeq, if_pos hlt]
      refine ⟨?_, ?_, ?_, ?_⟩ <;>
        simp only [loopTicks, hstep]
      · exact ihs.1
      · exact ihs.2.1
      · exact ihs.2.2.1
      · rw [ihs.2.2.2, hseq]
        simp
    · exfalso
      rw [heq] at hlen
      simp at hlen
    · have hstep := loopIter_down hsc hel'.1 hgt
      have ihs := ih { s with lastJawUpdateTime := t
                              currentJawAngle := s.currentJawAngle - 1 }
        hsc hel'.2 (by simp only; omega)
      have hseq : jawSeq s.currentJawAngle s.targetJawAngle (ts.length + 1) =
          (s.currentJawAngle - 1) ::
            jawSeq (s.currentJawAngle - 1) s.targetJawAngle ts.length := by
        rw [jawSeq, if_neg (by omega), if_pos hgt]
      refine ⟨?_, ?_, ?_, ?_⟩ <;>
        simp only [loopTicks, hstep]
      · exact ihs.1
      · exact ihs.2.1
      · exact ihs.2.2.1
      · rw [ihs.2.2.2, hseq]
        simp

/-- Reading with `serialEvent` never touches the jaw motion state. -/
lemma serialEvent_jaw_fields (s : FirmwareState) (bytes : List Char) :
    (serialEvent s bytes).currentJawAngle = s.currentJawAngle ∧
    (serialEvent s bytes).targetJawAngle = s.targetJawAngle ∧
    (serialEvent s bytes).lastJawUpdateTime = s.lastJawUpdateTime := by
  rw [serialEvent_eq]
  exact ⟨rfl, rfl, rfl⟩

/-- A direct write emitted by the command block comes from
`processCommand` on the buffered command. -/
lemma commandPhase_write_src {s : FirmwareState} {ch : Channel} {a : Int}
    (h : (commandPhase s).2.1 = some (ch, a)) :
    (processCommand s.inputString s.targetJawAngle).2 = some (ch, a) := by
  unfold commandPhase at h
  split at h
  · exact h
  · simp at h

/-- The command block never writes the jaw servo. -/
lemma commandPhase_writes_any_jaw (x : FirmwareState) :
    ((commandPhase x).2.1.toList.any (fun p => p.1 == Channel.jaw)) = false := by
  rcases hw : (commandPhase x).2.1 with _ | ⟨ch, a⟩
  · rfl
  · have hne : ch ≠ Channel.jaw :=
      processCommand_write_channel _ _ _ _ (commandPhase_write_src hw)
    simp [hne]

/-- The command block rewrites only the target and the buffer fields. -/
lemma commandPhase_target_cases (x : FirmwareState) :
    (commandPhase x).1.targetJawAngle = x.targetJawAngle ∨
    (commandPhase x).1.targetJawAngle =
      (processCommand x.inputString x.targetJawAngle).1 := by
  unfold commandPhase
  split
  · right; rfl
  · left; rfl

/-- Below the quantum, an iteration cannot write the jaw servo. -/
lemma loopIter_no_jaw_write_before_quantum {s : FirmwareState} {now : Nat}
    (h : now < s.lastJawUpdateTime + JAW_UPDATE_DELAY_MS) :
    ((loopIter s now).2.writes.any (fun p => p.1 == Channel.jaw)) = false := by
  rw [loopIter_unfold, jawPhase_skip h]
  simp [commandPhase_writes_any_jaw]

/-- An iteration that writes the jaw servo is past the quantum, and it
refreshes the timer to the iteration's time. -/
lemma loopIter_jaw_write_elapsed {s : FirmwareState} {now : Nat}
    (h : ((loopIter s now).2.writes.any (fun p => p.1 == Channel.jaw)) = true) :
    s.lastJawUpdateTime + JAW_UPDATE_DELAY_MS ≤ now ∧
    (loopIter s now).1.lastJawUpdateTime = now := by
  by_cases hel : s.lastJawUpdateTime + JAW_UPDATE_DELAY_MS ≤ now
  · refine ⟨hel, ?_⟩
    rw [loopIter_unfold]
    exact (commandPhase_other_fields (jawPhase s now).1).1.trans
      (jawPhase_last_elapsed hel)
  · rw [loopIter_no_jaw_write_before_quantum (by omega)] at h
    simp at h

/-- Equation lemma for `jawWriteTimes` on a cons cell. -/
lemma jawWriteTimes_cons (s : FirmwareState) (e : Nat × List Char)
    (evs : List (Nat × List Char)) :
    jawWriteTimes s (e :: evs) =
      (if (loopIter (serialEvent s e.2) e.1).2.writes.any
          (fun p => p.1 == Channel.jaw) then [e.1] else []) ++
        jawWriteTimes (loopIter (serialEvent s e.2) e.1).1 evs := rfl

/-- Every recorded jaw write time is at least one quantum past the timer
value the run started from. -/
lemma jawWriteTimes_lb : ∀ (evs : List (Nat × List Char)) (s : FirmwareState)
    (t : Nat), t ∈ jawWriteTimes s evs →
    s.lastJawUpdateTime + JAW_UPDATE_DELAY_MS ≤ t := by
  intro evs
  induction evs with
  | nil =>
    intro s t ht
    simp [jawWriteTimes] at ht
  | cons e evs ih =>
    intro s t ht
    rw [jawWriteTimes_cons] at ht
    have hlastE := (serialEvent_jaw_fields s e.2).2.2
    rcases List.mem_append.mp ht with h1 | h2
    · by_cases hc : ((loopIter (serialEvent s e.2) e.1).2.writes.any
          (fun p => p.1 == Channel.jaw)) = true
      · rw [if_pos hc] at h1
        simp at h1
        subst h1
        have hq := (loopIter_jaw_write_elapsed hc).1
        rw [hlastE] at hq
        exact hq
      · rw [if_neg hc] at h1
        simp at h1
    · have hlb := ih (loopIter (serialEvent s e.2) e.1).1 t h2
      have hmono := loopIter_last_mono (serialEvent s e.2) e.1
      rw [hlastE] at hmono
      omega

/-- In any run of the firmware, consecutive (hence all) jaw write times
are separated by at least one quantum. -/
lemma jawWriteTimes_pairwise : ∀ (evs : List (Nat × List Char))
    (s : FirmwareState),
    List.Pairwise (fun a b => a + JAW_UPDATE_DELAY_MS ≤ b)
      (jawWriteTimes s evs) := by
  intro evs
  induction evs with
  | nil => intro s; simp [jawWriteTimes]
  | cons e evs ih =>
    intro s
    rw [jawWriteTimes_cons]
    by_cases hc : ((loopIter (serialEvent s e.2) e.1).2.writes.any
        (fun p => p.1 == Channel.jaw)) = true
    · rw [if_pos hc, List.singleton_append, List.pairwise_cons]
      refine ⟨?_, ih _⟩
      intro b hb
      have hlb := jawWriteTimes_lb evs _ b hb
      rw [(loopIter_jaw_write_elapsed hc).2] at hlb
      exact hlb
    · rw [if_neg hc, List.nil_append]
      exact ih _

/-- A completed command is dispatched whole: the buffer is cleared, the
flag reset, the target updated from `processCommand`, and the dispatch
write appended after any jaw-phase write. -/
lemma loopIter_dispatch {s : FirmwareState} {now : Nat}
    (hsc : s.stringComplete = true) :
    (loopIter s now).1 =
      { (jawPhase s now).1 with
          targetJawAngle := (processCommand s.inputString s.targetJawAngle).1
          inputString := []
          stringComplete := false } ∧
    (loopIter s now).2.ack = true ∧
    (loopIter s now).2.writes =
      ((jawPhase s now).2.map (fun a => (Channel.jaw, a))).toList ++
        (processCommand s.inputString s.targetJawAngle).2.toList := by
  have hsc' : (jawPhase s now).1.stringComplete = true :=
    (jawPhase_other_fields s now).2.2.trans hsc
  have hin := (jawPhase_other_fields s now).2.1
  have htg := (jawPhase_other_fields s now).1
  rw [loopIter_unfold, commandPhase_complete hsc', hin, htg]
  exact ⟨rfl, rfl, rfl⟩

/-- An iteration preserves the jaw range invariant on the current angle. -/
lemma jawPhase_cur_mem {s : FirmwareState} (now : Nat)
    (hc1 : MIN_ANGLE ≤ s.currentJawAngle) (hc2 : s.currentJawAngle ≤ MAX_ANGLE)
    (ht1 : MIN_ANGLE ≤ s.targetJawAngle) (ht2 : s.targetJawAngle ≤ MAX_ANGLE) :
    MIN_ANGLE ≤ (jawPhase s now).1.currentJawAngle ∧
      (jawPhase s now).1.currentJawAngle ≤ MAX_ANGLE := by
  have h0 : MIN_ANGLE = (0 : Int) := rfl
  have h180 : MAX_ANGLE = (180 : Int) := rfl
  by_cases hel : s.lastJawUpdateTime + JAW_UPDATE_DELAY_MS ≤ now
  · rcases lt_trichotomy s.currentJawAngle s.targetJawAngle with hlt | heq | hgt
    · rw [jawPhase_up hel hlt]
      show MIN_ANGLE ≤ s.currentJawAngle + 1 ∧ s.currentJawAngle + 1 ≤ MAX_ANGLE
      omega
    · rw [jawPhase_idle hel heq]
      exact ⟨hc1, hc2⟩
    · rw [jawPhase_down hel hgt]
      show MIN_ANGLE ≤ s.currentJawAngle - 1 ∧ s.currentJawAngle - 1 ≤ MAX_ANGLE
      omega
  · rw [jawPhase_skip (by omega)]
    exact ⟨hc1, hc2⟩

/-! ## Claims -/

/-- C1: for every dispatched command, whatever integer the angle token
parses to, every value routed to an actuator — a direct neck/eye/z write,
or the jaw target update — is the parse clamped into
`[MIN_ANGLE, MAX_ANGLE] = [0, 180]`, so it lies in that range. -/
theorem C1_clamped_dispatch (cmd : List Char) (t : Int) :
    (∀ ch a, (processCommand cmd t).2 = some (ch, a) →
      MIN_ANGLE ≤ a ∧ a ≤ MAX_ANGLE) ∧
    ((processCommand cmd t).1 = t ∨
      (MIN_ANGLE ≤ (processCommand cmd t).1 ∧
        (processCommand cmd t).1 ≤ MAX_ANGLE)) :=
  ⟨fun ch a h => processCommand_write_mem cmd t ch a h,
   processCommand_target_mem cmd t⟩

/-- Witness for C1 at the command `"eye 999"`: the write is clamped. -/
theorem C1_witness : MIN_ANGLE ≤ (180 : Int) ∧ (180 : Int) ≤ MAX_ANGLE :=
  (C1_clamped_dispatch ("eye 999".toList) 30).1 Channel.eye 180 (by decide)

/-- C2: with a pending target `T ≠ C` and no pending command, running
`|T − C|` quantum-eligible loop iterations writes the strictly monotone
one-degree staircase from `C` to `T` to the jaw servo, ends with the
current angle exactly `T`, and afterwards no iteration writes any servo
until a new target arrives. -/
theorem C2_jaw_convergence (s : FirmwareState) (ts : List Nat)
    (hsc : s.stringComplete = false)
    (_hne : s.currentJawAngle ≠ s.targetJawAngle)
    (hel : eligible s.lastJawUpdateTime ts = true)
    (hlen : ts.length = (s.targetJawAngle - s.currentJawAngle).natAbs) :
    (loopTicks s ts).1.currentJawAngle = s.targetJawAngle ∧
    (loopTicks s ts).2 =
      (jawSeq s.currentJawAngle s.targetJawAngle ts.length).map
        (fun a => (Channel.jaw, a)) ∧
    (s.currentJawAngle < s.targetJawAngle →
      List.Chain' (· < ·) (jawSeq s.currentJawAngle s.targetJawAngle ts.length)) ∧
    (s.targetJawAngle < s.currentJawAngle →
      List.Chain' (· > ·) (jawSeq s.currentJawAngle s.targetJawAngle ts.length)) ∧
    (∀ now, (loopIter (loopTicks s ts).1 now).2.writes = []) := by
  have hrun := loopTicks_converge ts s hsc hel hlen
  refine ⟨hrun.1, hrun.2.2.2,
    fun h => jawSeq_chain_lt ts.length _ _ (le_of_lt h),
    fun h => jawSeq_chain_gt ts.length _ _ (le_of_lt h), ?_⟩
  intro now
  exact loopIter_converged_no_writes hrun.2.2.1
    (hrun.1.trans hrun.2.1.symm) now

/-- Witness for C2: from angle 30 toward target 33, three spaced ticks
reach 33. -/
theorem C2_witness :
    (loopTicks { currentJawAngle := 30, targetJawAngle := 33,
                 lastJawUpdateTime := 0, inputString := [],
                 stringComplete := false } [6, 12, 18]).1.currentJawAngle = 33 :=
  (C2_jaw_convergence
    { currentJawAngle := 30, targetJawAngle := 33, lastJawUpdateTime := 0,
      inputString := [], stringComplete := false }
    [6, 12, 18] rfl (by decide) (by decide) (by decide)).1

/-- C3 (amended): the reader appends every non-newline byte of a backlog
into the single shared buffer — newlines only set the ready flag — and the
next drain dispatches that entire merged buffer as one command and clears
it; a backlog is therefore merged, not processed one line per iteration. -/
theorem C3_merged_backlog :
    (∀ (s : FirmwareState) (bytes : List Char),
      (serialEvent s bytes).inputString =
        s.inputString ++ bytes.filter (fun c => c != '\n') ∧
      (serialEvent s bytes).stringComplete =
        (s.stringComplete || bytes.any (fun c => c == '\n'))) ∧
    (∀ (s : FirmwareState) (now : Nat), s.stringComplete = true →
      (loopIter s now).1.inputString = [] ∧
      (loopIter s now).1.stringComplete = false ∧
      (loopIter s now).1.targetJawAngle =
        (processCommand s.inputString s.targetJawAngle).1) := by
  constructor
  · intro s bytes
    rw [serialEvent_eq]
    exact ⟨rfl, rfl⟩
  · intro s now hsc
    rw [(loopIter_dispatch hsc).1]
    exact ⟨rfl, rfl, rfl⟩

/-- Witness for C3's amended theorem at a merged two-line buffer. -/
theorem C3_witness :
    (loopIter { currentJawAngle := 30, targetJawAngle := 30,
                lastJawUpdateTime := 0,
                inputString := ("neck 90eye 50".toList),
                stringComplete := true } 0).1.inputString = [] :=
  (C3_merged_backlog.2
    { currentJawAngle := 30, targetJawAngle := 30, lastJawUpdateTime := 0,
      inputString := ("neck 90eye 50".toList), stringComplete := true }
    0 rfl).1

/-- Counterexample to C3 as stated: the two lines `"neck 90"` and
`"eye 50"` arrive before a drain; the buffer holds the merged string
`"neck 90eye 50"`, the single next iteration dispatches it as one command
(writing only `neck := 90` — the eye command is swallowed, bytes of the
second line having been mixed into the first command), and the following
iteration has nothing left to process. -/
theorem C3_counterexample :
    (serialEvent initState ("neck 90\neye 50\n".toList)).inputString
        = "neck 90eye 50".toList ∧
    (serialEvent initState ("neck 90\neye 50\n".toList)).stringComplete = true ∧
    (loopIter (serialEvent initState ("neck 90\neye 50\n".toList)) 0).2.writes
        = [(Channel.neck, 90)] ∧
    (loopIter (serialEvent initState ("neck 90\neye 50\n".toList)) 0).2.ack
        = true ∧
    (loopIter (loopIter (serialEvent initState
        ("neck 90\neye 50\n".toList)) 0).1 1).2.writes = [] ∧
    (loopIter (loopIter (serialEvent initState
        ("neck 90\neye 50\n".toList)) 0).1 1).2.ack = false := by
  decide

/-- C4: a trimmed line with no space is discarded as a no-op — no servo
write, no target change — while the buffer is still cleared, so a
following well-formed command behaves exactly as if the malformed line
had never been received. -/
theorem C4_malformed_noop (bad : List Char) (t : Int)
    (h1 : firstSpaceIdx (trim bad) = none)
    (h2 : bad.all (fun c => c != '\n') = true) :
    processCommand bad t = (t, none) ∧
    (∀ s : FirmwareState, s.stringComplete = true → s.inputString = bad →
      commandPhase s =
        ({ s with inputString := [], stringComplete := false }, none, true)) ∧
    ((loopIter (serialEvent initState (bad ++ ['\n'])) 0).2.writes = [] ∧
     (loopIter (serialEvent initState (bad ++ ['\n'])) 0).1 = initState ∧
     (loopIter (serialEvent (loopIter (serialEvent initState
        (bad ++ ['\n'])) 0).1 ("neck 90\n".toList)) 0).2.writes
        = [(Channel.neck, 90)]) := by
  have hs0 : serialEvent initState (bad ++ ['\n']) =
      { initState with inputString := bad, stringComplete := true } := by
    rw [serialEvent_eq]
    have hb : bad.filter (fun c => c != '\n') = bad := by
      rw [List.filter_eq_self]
      intro a ha
      exact (List.all_eq_true.mp h2) a ha
    simp [hb, initState]
  have hli : loopIter (serialEvent initState (bad ++ ['\n'])) 0 =
      (initState, { writes := [], ack := true }) := by
    rw [hs0]
    have hpc0 : processCommand bad initState.targetJawAngle =
        (initState.targetJawAngle, none) := processCommand_no_space _ h1
    have hcalc : loopIter { initState with inputString := bad, stringComplete := true } 0 = ({ initState with targetJawAngle := (processCommand bad initState.targetJawAngle).1, inputString := [], stringComplete := false }, { writes := (processCommand bad initState.targetJawAngle).2.toList, ack := true }) := rfl
    rw [hcalc, hpc0]
    rfl
  refine ⟨processCommand_no_space t h1, ?_, ?_⟩
  · intro s hsc hin
    rw [commandPhase_complete hsc, hin, processCommand_no_space _ h1]
  · refine ⟨?_, ?_, ?_⟩
    · rw [hli]
    · rw [hli]
    · rw [hli]
      decide

/-- Witness for C4 at the malformed line `"neckonly"`. -/
theorem C4_witness : processCommand ("neckonly".toList) 30 = (30, none) :=
  (C4_malformed_noop ("neckonly".toList) 30 (by decide) (by decide)).1

/-- C5: dispatching a jaw command while the interpolator is still
converging to the previous target replaces the target immediately
(current angle untouched), and the very next quantum-eligible tick steps
the current angle one degree toward the new target — the old target is
abandoned without being reached. -/
theorem C5_retarget (s : FirmwareState) (i : Nat) (now now2 : Nat) (newT : Int)
    (hsc : s.stringComplete = true)
    (hi : firstSpaceIdx (trim s.inputString) = some i)
    (hjaw : equalsIgnoreCase ((trim s.inputString).take i) ("jaw".toList) = true)
    (hT : newT = constrain (toInt16 (atoiList ((trim s.inputString).drop (i + 1))))
      MIN_ANGLE MAX_ANGLE)
    (_hconv : s.currentJawAngle ≠ s.targetJawAngle)
    (hne2 : s.currentJawAngle ≠ newT)
    (hquiet : now < s.lastJawUpdateTime + JAW_UPDATE_DELAY_MS)
    (hnext : (loopIter s now).1.lastJawUpdateTime + JAW_UPDATE_DELAY_MS ≤ now2) :
    (loopIter s now).1.targetJawAngle = newT ∧
    (loopIter s now).1.currentJawAngle = s.currentJawAngle ∧
    (loopIter (loopIter s now).1 now2).2.writes =
      [(Channel.jaw,
        if s.currentJawAngle < newT then s.currentJawAngle + 1
        else s.currentJawAngle - 1)] ∧
    (loopIter (loopIter s now).1 now2).1.currentJawAngle =
      (if s.currentJawAngle < newT then s.currentJawAngle + 1
       else s.currentJawAngle - 1) := by
  have hpc : processCommand s.inputString s.targetJawAngle = (newT, none) := by
    rw [processCommand_jaw s.targetJawAngle hi hjaw, hT]
  have hstate : (loopIter s now).1 =
      { s with targetJawAngle := newT, inputString := []
               stringComplete := false } := by
    rw [(loopIter_dispatch hsc).1, jawPhase_skip hquiet, hpc]
  have hnext' : s.lastJawUpdateTime + JAW_UPDATE_DELAY_MS ≤ now2 := by
    rw [hstate] at hnext
    exact hnext
  refine ⟨by rw [hstate], by rw [hstate], ?_, ?_⟩ <;> rw [hstate]
  · by_cases hlt : s.currentJawAngle < newT
    · rw [loopIter_up (s := { s with targetJawAngle := newT, inputString := [], stringComplete := false }) rfl hnext' hlt, if_pos hlt]
    · rw [loopIter_down (s := { s with targetJawAngle := newT, inputString := [], stringComplete := false }) rfl hnext' (by show newT < s.currentJawAngle; omega), if_neg hlt]
  · by_cases hlt : s.currentJawAngle < newT
    · rw [loopIter_up (s := { s with targetJawAngle := newT, inputString := [], stringComplete := false }) rfl hnext' hlt, if_pos hlt]
    · rw [loopIter_down (s := { s with targetJawAngle := newT, inputString := [], stringComplete := false }) rfl hnext' (by show newT < s.currentJawAngle; omega), if_neg hlt]

/-- Witness for C5: converging 50 → 60, command `"jaw 20"` retargets and
the next tick steps down to 49. -/
theorem C5_witness :
    (loopIter { currentJawAngle := 50, targetJawAngle := 60,
                lastJawUpdateTime := 0, inputString := ("jaw 20".toList),
                stringComplete := true } 3).1.targetJawAngle = 20 :=
  (C5_retarget
    { currentJawAngle := 50, targetJawAngle := 60, lastJawUpdateTime := 0,
      inputString := ("jaw 20".toList), stringComplete := true }
    3 3 10 20 rfl (by decide) (by decide) (by decide) (by decide)
    (by decide) (by decide) (by decide)).1

/-- C6: a `jaw` command (case-insensitive) only updates the jaw target —
no servo write, buffer cleared, everything else (current angle, timer)
untouched; a `neck`/`eye`/`z` command performs exactly one direct write of
the clamped angle to that channel and leaves the jaw motion state
(current and target) unchanged. -/
theorem C6_dispatch_frame (cmd : List Char) (t : Int) (i : Nat)
    (hi : firstSpaceIdx (trim cmd) = some i) :
    (equalsIgnoreCase ((trim cmd).take i) ("jaw".toList) = true →
      processCommand cmd t =
        (constrain (toInt16 (atoiList ((trim cmd).drop (i + 1)))) MIN_ANGLE MAX_ANGLE,
         none) ∧
      ∀ s : FirmwareState, s.stringComplete = true → s.inputString = cmd →
        commandPhase s =
          ({ s with targetJawAngle := constrain (toInt16 (atoiList ((trim cmd).drop (i + 1)))) MIN_ANGLE MAX_ANGLE, inputString := [], stringComplete := false },
           none, true)) ∧
    (equalsIgnoreCase ((trim cmd).take i) ("neck".toList) = true →
      processCommand cmd t =
        (t, some (Channel.neck,
          constrain (toInt16 (atoiList ((trim cmd).drop (i + 1)))) MIN_ANGLE MAX_ANGLE)) ∧
      ∀ s : FirmwareState, s.stringComplete = true → s.inputString = cmd →
        commandPhase s =
          ({ s with inputString := [], stringComplete := false },
           some (Channel.neck,
             constrain (toInt16 (atoiList ((trim cmd).drop (i + 1)))) MIN_ANGLE MAX_ANGLE),
           true)) ∧
    (equalsIgnoreCase ((trim cmd).take i) ("eye".toList) = true →
      processCommand cmd t =
        (t, some (Channel.eye,
          constrain (toInt16 (atoiList ((trim cmd).drop (i + 1)))) MIN_ANGLE MAX_ANGLE)) ∧
      ∀ s : FirmwareState, s.stringComplete = true → s.inputString = cmd →
        commandPhase s =
          ({ s with inputString := [], stringComplete := false },
           some (Channel.eye,
             constrain (toInt16 (atoiList ((trim cmd).drop (i + 1)))) MIN_ANGLE MAX_ANGLE),
           true)) ∧
    (equalsIgnoreCase ((trim cmd).take i) ("z".toList) = true →
      processCommand cmd t =
        (t, some (Channel.z,
          constrain (toInt16 (atoiList ((trim cmd).drop (i + 1)))) MIN_ANGLE MAX_ANGLE)) ∧
      ∀ s : FirmwareState, s.stringComplete = true → s.inputString = cmd →
        commandPhase s =
          ({ s with inputString := [], stringComplete := false },
           some (Channel.z,
             constrain (toInt16 (atoiList ((trim cmd).drop (i + 1)))) MIN_ANGLE MAX_ANGLE),
           true)) := by
  refine ⟨fun hj => ⟨processCommand_jaw t hi hj, ?_⟩,
          fun hn => ⟨processCommand_neck t hi hn, ?_⟩,
          fun he => ⟨processCommand_eye t hi he, ?_⟩,
          fun hz => ⟨processCommand_z t hi hz, ?_⟩⟩ <;>
    intro s hsc hin
  · rw [commandPhase_complete hsc, hin, processCommand_jaw _ hi ‹_›]
  · rw [commandPhase_complete hsc, hin, processCommand_neck _ hi ‹_›]
  · rw [commandPhase_complete hsc, hin, processCommand_eye _ hi ‹_›]
  · rw [commandPhase_complete hsc, hin, processCommand_z _ hi ‹_›]

/-- Witness for C6 at the command `"JAW 100"`. -/
theorem C6_witness : processCommand ("JAW 100".toList) 30 = (100, none) :=
  ((C6_dispatch_frame ("JAW 100".toList) 30 3 (by decide)).1 (by decide)).1

/-- C7 (amended): exactly one `"K"` acknowledgment is emitted per loop
iteration that finds a completed command pending — whether the command is
well-formed, malformed, or unrecognized — and none otherwise; the
acknowledgment count is therefore 1:1 with drains, not with received
lines (a merged backlog is acknowledged once). -/
theorem C7_ack_per_drain : ∀ (s : FirmwareState) (now : Nat),
    (loopIter s now).2.ack = s.stringComplete := by
  intro s now
  have hx := (jawPhase_other_fields s now).2.2
  rw [loopIter_unfold]
  cases hsc : (jawPhase s now).1.stringComplete with
  | true =>
    rw [commandPhase_complete hsc, ← hx, hsc]
  | false =>
    rw [commandPhase_not_complete hsc, ← hx, hsc]

/-- Counterexample to C7 as stated: two newline-terminated lines
(`"jaw 40"`, `"z 10"`) are received before a drain, yet over the two
following iterations only one acknowledgment is emitted, and nothing is
left pending — the 1:1 line-to-acknowledgment ratio fails. -/
theorem C7_counterexample :
    (("jaw 40\nz 10\n".toList).filter (fun c => c == '\n')).length = 2 ∧
    (loopIter (serialEvent initState ("jaw 40\nz 10\n".toList)) 0).2.ack
        = true ∧
    (loopIter (loopIter (serialEvent initState
        ("jaw 40\nz 10\n".toList)) 0).1 1).2.ack = false ∧
    (loopIter (loopIter (serialEvent initState
        ("jaw 40\nz 10\n".toList)) 0).1 1).1.stringComplete = false := by
  decide

/-- C8: a command whose channel token matches none of
`{neck, jaw, eye, z}` (case-insensitively) produces no servo write and no
jaw-state change — the buffer is simply cleared, with no error. -/
theorem C8_unrecognized_noop (cmd : List Char) (t : Int) (i : Nat)
    (hi : firstSpaceIdx (trim cmd) = some i)
    (h1 : equalsIgnoreCase ((trim cmd).take i) ("neck".toList) = false)
    (h2 : equalsIgnoreCase ((trim cmd).take i) ("jaw".toList) = false)
    (h3 : equalsIgnoreCase ((trim cmd).take i) ("eye".toList) = false)
    (h4 : equalsIgnoreCase ((trim cmd).take i) ("z".toList) = false) :
    processCommand cmd t = (t, none) ∧
    (∀ s : FirmwareState, s.stringComplete = true → s.inputString = cmd →
      commandPhase s =
        ({ s with inputString := [], stringComplete := false }, none, true)) := by
  refine ⟨processCommand_unrecognized t hi h1 h2 h3 h4, ?_⟩
  intro s hsc hin
  rw [commandPhase_complete hsc, hin,
    processCommand_unrecognized _ hi h1 h2 h3 h4]

/-- Witness for C8 at the command `"foot 50"`. -/
theorem C8_witness : processCommand ("foot 50".toList) 30 = (30, none) :=
  (C8_unrecognized_noop ("foot 50".toList) 30 4 (by decide) (by decide)
    (by decide) (by decide) (by decide)).1

/-- C9: in every reachable firmware state, both the current and the
target jaw angle lie within `[MIN_ANGLE, MAX_ANGLE] = [0, 180]`: they
start at the startup angle, commands only install clamped targets, and
each tick moves the current angle one degree toward an in-range target. -/
theorem C9_range_invariant (s : FirmwareState) (h : Reachable s) :
    MIN_ANGLE ≤ s.currentJawAngle ∧ s.currentJawAngle ≤ MAX_ANGLE ∧
    MIN_ANGLE ≤ s.targetJawAngle ∧ s.targetJawAngle ≤ MAX_ANGLE := by
  induction h with
  | init => refine ⟨?_, ?_, ?_, ?_⟩ <;> decide
  | serial s0 bytes _ ih =>
    obtain ⟨hf1, hf2, _⟩ := serialEvent_jaw_fields s0 bytes
    rw [hf1, hf2]
    exact ih
  | step s0 now _ ih =>
    obtain ⟨i1, i2, i3, i4⟩ := ih
    have hcurb := jawPhase_cur_mem now i1 i2 i3 i4 (s := s0)
    have htg := (jawPhase_other_fields s0 now).1
    have hcur : (loopIter s0 now).1.currentJawAngle =
        (jawPhase s0 now).1.currentJawAngle := by
      rw [loopIter_unfold]
      exact (commandPhase_other_fields (jawPhase s0 now).1).2
    have htgt : (loopIter s0 now).1.targetJawAngle =
        (commandPhase (jawPhase s0 now).1).1.targetJawAngle := by
      rw [loopIter_unfold]
    have htb : MIN_ANGLE ≤ (commandPhase (jawPhase s0 now).1).1.targetJawAngle ∧
        (commandPhase (jawPhase s0 now).1).1.targetJawAngle ≤ MAX_ANGLE := by
      rcases commandPhase_target_cases (jawPhase s0 now).1 with hcase | hcase
      · rw [hcase, htg]
        exact ⟨i3, i4⟩
      · rw [hcase]
        rcases processCommand_target_mem (jawPhase s0 now).1.inputString
            (jawPhase s0 now).1.targetJawAngle with h2 | h2
        · rw [h2, htg]
          exact ⟨i3, i4⟩
        · exact h2
    rw [hcur, htgt]
    exact ⟨hcurb.1, hcurb.2, htb.1, htb.2⟩

/-- Witness for C9 at the startup state. -/
theorem C9_witness :
    MIN_ANGLE ≤ initState.currentJawAngle ∧
    initState.currentJawAngle ≤ MAX_ANGLE ∧
    MIN_ANGLE ≤ initState.targetJawAngle ∧
    initState.targetJawAngle ≤ MAX_ANGLE :=
  C9_range_invariant initState Reachable.init

/-- C10: on every iteration past a full quantum the jaw timer is
refreshed to the iteration time, even while idle (when nothing is
written); no jaw write can occur before a quantum has elapsed since the
most recent refresh; and in any run the jaw write times are pairwise at
least one quantum apart. -/
theorem C10_quantum_timing :
    (∀ (s : FirmwareState) (now : Nat),
        s.lastJawUpdateTime + JAW_UPDATE_DELAY_MS ≤ now →
        (loopIter s now).1.lastJawUpdateTime = now) ∧
    (∀ (s : FirmwareState) (now : Nat),
        s.currentJawAngle = s.targetJawAngle →
        ((loopIter s now).2.writes.any (fun p => p.1 == Channel.jaw)) = false) ∧
    (∀ (s : FirmwareState) (now : Nat),
        now < s.lastJawUpdateTime + JAW_UPDATE_DELAY_MS →
        ((loopIter s now).2.writes.any (fun p => p.1 == Channel.jaw)) = false) ∧
    (∀ (s : FirmwareState) (evs : List (Nat × List Char)),
        List.Pairwise (fun a b => a + JAW_UPDATE_DELAY_MS ≤ b)
          (jawWriteTimes s evs)) := by
  refine ⟨?_, ?_, ?_, ?_⟩
  · intro s now h
    rw [loopIter_unfold]
    exact (commandPhase_other_fields (jawPhase s now).1).1.trans
      (jawPhase_last_elapsed h)
  · intro s now heq
    by_cases hel : s.lastJawUpdateTime + JAW_UPDATE_DELAY_MS ≤ now
    · rw [loopIter_unfold, jawPhase_idle hel heq]
      simp [commandPhase_writes_any_jaw]
    · exact loopIter_no_jaw_write_before_quantum (by omega)
  · intro s now h
    exact loopIter_no_jaw_write_before_quantum h
  · intro s evs
    exact jawWriteTimes_pairwise evs s

/-- Witness for C10: timer refresh at 6 on the idle startup state; no jaw
write while idle or before the quantum; spaced write times in a concrete
run (a jaw command at 6 then ticks at 8 and 14). -/
theorem C10_witness :
    (loopIter initState 6).1.lastJawUpdateTime = 6 ∧
    ((loopIter initState 10).2.writes.any (fun p => p.1 == Channel.jaw))
        = false ∧
    ((loopIter initState 3).2.writes.any (fun p => p.1 == Channel.jaw))
        = false ∧
    List.Pairwise (fun a b => a + JAW_UPDATE_DELAY_MS ≤ b)
      (jawWriteTimes initState [(6, ("jaw 90\n".toList)), (8, []), (14, [])]) :=
  ⟨C10_quantum_timing.1 initState 6 (by decide),
   C10_quantum_timing.2.1 initState 10 rfl,
   C10_quantum_timing.2.2.1 initState 3 (by decide),
   C10_quantum_timing.2.2.2 initState [(6, ("jaw 90\n".toList)), (8, []), (14, [])]⟩

example : processCommand ("neck 90".toList) 30 = (30, some (Channel.neck, 90)) := by decide
example : processCommand ("eye 999".toList) 30 = (30, some (Channel.eye, 180)) := by decide
example : processCommand ("JAW -5".toList) 30 = (0, none) := by decide
example : processCommand ("foot 50".toList) 30 = (30, none) := by decide
example : toInt16 (atoiList ("40000".toList)) = -25536 := by decide
example : processCommand ("neck 40000".toList) 30 = (30, some (Channel.neck, 0)) := by decide
example : processCommand ("jaw 40000".toList) 30 = (0, none) := by decide
example : processCommand ("neckonly".toList) 30 = (30, none) := by decide
example : (serialEvent initState ("neck 90\neye 50\n".toList)).inputString
    = "neck 90eye 50".toList := by decide
example : (loopIter { initState with targetJawAngle := 32 } 6).2.writes
    = [(Channel.jaw, 31)] := by decide
